import Mathlib

/-!
# Verification model of the sockets-chat repository

Shallow embedding of the C chat system (`chat_common.c`, `chat_server.c`,
`chat_client.c`, `chat_common.h`) into Lean 4.

Conventions of the embedding:
* C byte buffers and `char` arrays are `List Nat` (each element one byte).
* Reading a `char` array as a C string takes the bytes up to the first NUL
  (`cString`).
* Machine integers are `Nat` / `Int`; wire encodings of `uint32` / `uint64`
  values are little-endian byte lists with explicit truncation.
* Fallible C functions returning `-1` / `NULL` become `Option` or carry an
  `Int` return code.
* The outcome of `send(2)` on a socket is an environment oracle
  `sendOk : Nat → Bool`, indexed by the registry slot being sent to.
* `time(NULL)` is an explicit `now : Nat` parameter.
* OS-only fields of the C structs (`struct sockaddr_in address`,
  `pthread_t thread_id`, `int server_socket`) play no role in any claim
  and are omitted from the records.
-/

namespace ChatModel

/-! ## Constants (`chat_common.h`) -/

/-- `#define MAX_CLIENTS 50` -/
def MAX_CLIENTS : Nat := 50

/-- `#define BUFFER_SIZE 1024` -/
def BUFFER_SIZE : Nat := 1024

/-- `#define USERNAME_SIZE 32` -/
def USERNAME_SIZE : Nat := 32

/-- `#define MESSAGE_SIZE (BUFFER_SIZE - USERNAME_SIZE - 64)` -/
def MESSAGE_SIZE : Nat := BUFFER_SIZE - USERNAME_SIZE - 64

/-- Size of the serialized `chat_message_t` frame:
4 bytes for the `message_type_t` enum, the two char arrays, 8 bytes for the
`time_t` timestamp and 8 bytes for the `size_t` length field. -/
def FRAME_SIZE : Nat := 4 + USERNAME_SIZE + MESSAGE_SIZE + 8 + 8

/-! ## Byte-string helpers (C string semantics) -/

/-- Reading a `char` array as a C string: the bytes before the first NUL. -/
def cString (l : List Nat) : List Nat := l.takeWhile (fun b => b ≠ 0)

/-- `strncpy(dst, src, n)` into a buffer whose tail is then zeroed (the C
code always either `memset`s the destination first or writes a final NUL):
the first `n` bytes written, NUL padded. -/
def strncpyN (src : List Nat) (n : Nat) : List Nat :=
  let s := (cString src).take n
  s ++ List.replicate (n - s.length) 0

/-- A `char dst[n]` field after `strncpy(dst, src, n-1); dst[n-1] = 0;`
over a zeroed buffer: exactly `n` bytes. -/
def fixStr (src : List Nat) (n : Nat) : List Nat :=
  strncpyN src (n - 1) ++ [0]

/-- Truncate / zero-pad a list to exactly `n` bytes (raw `memcpy` of a
fixed-size field). -/
def fixLen (n : Nat) (l : List Nat) : List Nat :=
  l.take n ++ List.replicate (n - l.length) 0

/-- Little-endian encoding of `n` into `k` bytes (the in-memory image of a
`k`-byte machine integer; truncates modulo `2^(8*k)`). -/
def leEnc (k : Nat) (n : Nat) : List Nat :=
  match k with
  | 0 => []
  | k + 1 => n % 256 :: leEnc k (n / 256)

/-- Little-endian decoding of a byte list back to a `Nat`. -/
def leDec (l : List Nat) : Nat :=
  match l with
  | [] => 0
  | b :: r => b + 256 * leDec r

/-! ## `chat_message_t` and the wire protocol (`chat_common.c`) -/

/-- `chat_message_t`: `type` is the `message_type_t` enum value
(`MSG_CONNECT = 0`, `MSG_DISCONNECT = 1`, `MSG_CHAT = 2`,
`MSG_NOTIFICATION = 3`, `MSG_ERROR = 4`, `MSG_KEEPALIVE = 5`),
`username` is the raw 32-byte array, `content` the raw
`MESSAGE_SIZE`-byte array. -/
structure ChatMessage where
  type : Nat
  username : List Nat
  content : List Nat
  timestamp : Nat
  length : Nat
deriving DecidableEq, BEq

/-- `init_message`: zero the struct, set the type and timestamp, `strncpy`
the username and content (truncated, NUL-terminated), and set
`msg->length = sizeof(chat_message_t)`. -/
def init_message (type : Nat) (username : List Nat) (content : List Nat)
    (now : Nat) : ChatMessage :=
  { type := type
    username := fixStr username USERNAME_SIZE
    content := fixStr content MESSAGE_SIZE
    timestamp := now
    length := FRAME_SIZE }

/-- `serialize_message`: fails if the output buffer is smaller than
`sizeof(chat_message_t)`, otherwise `memcpy`s the struct, returning the
frame bytes (field-by-field image of the fixed-size struct). -/
def serialize_message (msg : ChatMessage) (buffer_size : Nat) :
    Option (List Nat) :=
  if buffer_size < FRAME_SIZE then none
  else some (leEnc 4 msg.type ++ fixLen USERNAME_SIZE msg.username ++
    fixLen MESSAGE_SIZE msg.content ++ leEnc 8 msg.timestamp ++
    leEnc 8 msg.length)

/-- `deserialize_message`: fails if the input is shorter than
`sizeof(chat_message_t)`; `memcpy`s the bytes into the struct, rejects a
`type` outside `MSG_CONNECT..MSG_KEEPALIVE` (as a signed `int`, any byte
pattern above 5 — including the ones that read back negative — fails), and
forces NUL termination of `username[31]` and `content[MESSAGE_SIZE-1]`. -/
def deserialize_message (buffer : List Nat) : Option ChatMessage :=
  if buffer.length < FRAME_SIZE then none
  else
    let t := leDec (buffer.take 4)
    if 5 < t then none
    else some
      { type := t
        username := ((buffer.drop 4).take USERNAME_SIZE).set (USERNAME_SIZE - 1) 0
        content := (((buffer.drop 4).drop USERNAME_SIZE).take MESSAGE_SIZE).set (MESSAGE_SIZE - 1) 0
        timestamp := leDec ((((buffer.drop 4).drop USERNAME_SIZE).drop MESSAGE_SIZE).take 8)
        length := leDec (((((buffer.drop 4).drop USERNAME_SIZE).drop MESSAGE_SIZE).drop 8).take 8) }

/-- Is a byte an ASCII letter, digit or underscore
(`a-z`, `A-Z`, `0-9`, `_`)? -/
def isNameByte (c : Nat) : Bool :=
  decide ((97 ≤ c ∧ c ≤ 122) ∨ (65 ≤ c ∧ c ≤ 90) ∨ (48 ≤ c ∧ c ≤ 57) ∨ c = 95)

/-- `validate_username`: the C string must be non-empty, have `strlen`
below `USERNAME_SIZE`, and consist only of letters, digits and `_`. -/
def validate_username (username : List Nat) : Bool :=
  let s := cString username
  if s.length = 0 then false
  else if USERNAME_SIZE ≤ s.length then false
  else s.all isNameByte

/-! ## Server data model (`chat_common.h`, `chat_server.c`) -/

/-- `client_info_t`: one registry slot.  `username` is the raw 32-byte
array stored in the slot. -/
structure ClientInfo where
  socket_fd : Int
  username : List Nat
  connect_time : Nat
  active : Bool
  disconnect_notified : Bool
deriving DecidableEq, BEq

/-- A free slot as initialized by `init_server_context`
(`socket_fd = -1`, `active = 0`). -/
def emptyClient : ClientInfo :=
  { socket_fd := -1, username := List.replicate USERNAME_SIZE 0
    connect_time := 0, active := false, disconnect_notified := false }

/-- `server_context_t`: the client table, the `client_count` counter
(a C `int`) and the `running` flag. -/
structure ServerContext where
  clients : List ClientInfo
  client_count : Int
  running : Bool
deriving DecidableEq, BEq

/-- Number of slots whose `active` flag is set. -/
def countActive (cs : List ClientInfo) : Nat :=
  cs.countP (fun c => c.active)

/-- The `for (i = 0; i < MAX_CLIENTS; i++)` search loops of the server:
index of the first slot satisfying `p`. -/
def findSlot (p : ClientInfo → Bool) : List ClientInfo → Option Nat
  | [] => none
  | c :: rest => if p c then some 0 else (findSlot p rest).map (fun n => n + 1)

/-! ## Observable events

Network effects of the server are recorded in an event log: direct sends
(`send_message_to_client`) and broadcasts. -/

/-- One `broadcast_message` call: the message, the excluded socket, the
`(slot, socket)` pairs a send was attempted on, and the sockets whose send
succeeded. -/
structure BroadcastEvent where
  msg : ChatMessage
  exclude : Int
  attempted : List (Nat × Int)
  delivered : List Int
deriving DecidableEq, BEq

/-- An observable network action of the server. -/
inductive ServerEvent where
  | sent (sock : Int) (msg : ChatMessage)
  | bcast (ev : BroadcastEvent)
deriving DecidableEq, BEq

/-! ## Message texts (byte lists of the C string literals, UTF-8) -/

/-- `"Sistema"` -/
def SISTEMA : List Nat := [83, 105, 115, 116, 101, 109, 97]

/-- `"[Usuario "` -/
def TXT_USR : List Nat := [91, 85, 115, 117, 97, 114, 105, 111, 32]

/-- `" se desconectó]"` -/
def TXT_DISC : List Nat :=
  [32, 115, 101, 32, 100, 101, 115, 99, 111, 110, 101, 99, 116, 195, 179, 93]

/-- `" se conectó]"` -/
def TXT_CONN : List Nat :=
  [32, 115, 101, 32, 99, 111, 110, 101, 99, 116, 195, 179, 93]

/-- `"Nombre de usuario inválido"` -/
def TXT_ERR_NAME : List Nat :=
  [78, 111, 109, 98, 114, 101, 32, 100, 101, 32, 117, 115, 117, 97, 114,
   105, 111, 32, 105, 110, 118, 195, 161, 108, 105, 100, 111]

/-- `"Servidor lleno. Intente más tarde."` -/
def TXT_ERR_FULL : List Nat :=
  [83, 101, 114, 118, 105, 100, 111, 114, 32, 108, 108, 101, 110, 111, 46,
   32, 73, 110, 116, 101, 110, 116, 101, 32, 109, 195, 161, 115, 32, 116,
   97, 114, 100, 101, 46]

/-- `"Conectado al chat. ¡Bienvenido!"` -/
def TXT_WELCOME : List Nat :=
  [67, 111, 110, 101, 99, 116, 97, 100, 111, 32, 97, 108, 32, 99, 104, 97,
   116, 46, 32, 194, 161, 66, 105, 101, 110, 118, 101, 110, 105, 100, 111, 33]

/-- `snprintf(text, MESSAGE_SIZE, "[Usuario %s se desconectó]", u)`:
reads `u` as a C string, truncates to `MESSAGE_SIZE - 1` bytes. -/
def discText (u : List Nat) : List Nat :=
  (TXT_USR ++ cString u ++ TXT_DISC).take (MESSAGE_SIZE - 1)

/-- `snprintf(text, MESSAGE_SIZE, "[Usuario %s se conectó]", u)`. -/
def connText (u : List Nat) : List Nat :=
  (TXT_USR ++ cString u ++ TXT_CONN).take (MESSAGE_SIZE - 1)

/-- The disconnect NOTIFICATION message built for user `u` at time `now`
(identical format string at all three call sites in the server). -/
def disconnect_notice (u : List Nat) (now : Nat) : ChatMessage :=
  init_message 3 SISTEMA (discText u) now

/-! ## Registry operations (`chat_server.c`) -/

/-- The per-slot body of the `broadcast_message` loop, threading the slot
index `i`: for every slot that is `active` and whose socket differs from
`exclude`, a send is attempted; success increments `sent_count`, failure
marks the slot inactive (lazy eviction) and the loop continues.
Returns `(sent_count, updated slots, attempted (slot, socket) pairs,
delivered sockets)`. -/
def broadcastLoop (sendOk : Nat → Bool) (exclude : Int) :
    Nat → List ClientInfo → Nat × List ClientInfo × List (Nat × Int) × List Int
  | _, [] => (0, [], [], [])
  | i, c :: rest =>
    let r := broadcastLoop sendOk exclude (i + 1) rest
    if c.active = true ∧ c.socket_fd ≠ exclude then
      if sendOk i then
        (r.1 + 1, c :: r.2.1, (i, c.socket_fd) :: r.2.2.1, c.socket_fd :: r.2.2.2)
      else
        (r.1, { c with active := false } :: r.2.1, (i, c.socket_fd) :: r.2.2.1, r.2.2.2)
    else
      (r.1, c :: r.2.1, r.2.2.1, r.2.2.2)

/-- `broadcast_message`: serialize the message into the `BUFFER_SIZE`
stack buffer (this never fails, `BUFFER_SIZE ≥ sizeof(chat_message_t)`;
on the impossible failure the C code returns 0 without sending), then
send to every active slot except `exclude_socket`.
Returns `(sent_count, new context, broadcast event)`. -/
def broadcast_message (ctx : ServerContext) (msg : ChatMessage)
    (exclude_socket : Int) (sendOk : Nat → Bool) :
    Nat × ServerContext × BroadcastEvent :=
  match serialize_message msg BUFFER_SIZE with
  | none => (0, ctx, ⟨msg, exclude_socket, [], []⟩)
  | some _ =>
    let r := broadcastLoop sendOk exclude_socket 0 ctx.clients
    (r.1, { ctx with clients := r.2.1 }, ⟨msg, exclude_socket, r.2.2.1, r.2.2.2⟩)

/-- `send_message_to_client`: serialize and send to one socket (recorded
as an event; the send result is ignored by every caller in the server). -/
def send_message_to_client (client_socket : Int) (msg : ChatMessage) :
    ServerEvent :=
  ServerEvent.sent client_socket msg

/-- `add_client`: under the registry lock, fail if
`client_count >= MAX_CLIENTS`, otherwise take the first free slot
(lowest index with `active == 0`), fill it in (`strncpy`ed username,
`active = 1`, `disconnect_notified = 0`), and increment `client_count`.
Returns the slot index and the new context, or `none` on failure. -/
def add_client (ctx : ServerContext) (client_socket : Int)
    (username : List Nat) (now : Nat) : Option (Nat × ServerContext) :=
  if (MAX_CLIENTS : Int) ≤ ctx.client_count then none
  else
    match findSlot (fun c => !c.active) ctx.clients with
    | none => none
    | some i =>
      let c : ClientInfo :=
        { socket_fd := client_socket
          username := fixStr username USERNAME_SIZE
          connect_time := now
          active := true
          disconnect_notified := false }
      some (i, { ctx with clients := ctx.clients.set i c
                          client_count := ctx.client_count + 1 })

/-- `find_client`: index of the first active slot with the given socket
(the C function returns a pointer into the array; sessions are mutated in
place, so the pointer is the slot index). -/
def find_client (ctx : ServerContext) (client_socket : Int) : Option Nat :=
  findSlot (fun c => c.active && c.socket_fd == client_socket) ctx.clients

/-- `remove_client`: if the server is shutting down (`!ctx->running`),
return 0 immediately with no effect.  Otherwise find the first active slot
with the socket; if not found return -1.  If found and the disconnect
notification has not been sent yet, set `disconnect_notified`, release the
lock and broadcast the notification (excluding the leaving socket), then
re-acquire the lock.  Finally mark the slot inactive, close its socket
(`SAFE_CLOSE` sets the fd to -1) and decrement `client_count`. -/
def remove_client (ctx : ServerContext) (client_socket : Int)
    (sendOk : Nat → Bool) (now : Nat) :
    Int × ServerContext × List ServerEvent :=
  if ctx.running = false then (0, ctx, [])
  else
    match findSlot (fun c => c.active && c.socket_fd == client_socket) ctx.clients with
    | none => (-1, ctx, [])
    | some i =>
      let c := ctx.clients.getD i emptyClient
      if c.disconnect_notified = false then
        let ctx1 : ServerContext :=
          { ctx with clients := ctx.clients.set i { c with disconnect_notified := true } }
        let note := disconnect_notice c.username now
        let r := broadcast_message ctx1 note client_socket sendOk
        let c2 := r.2.1.clients.getD i emptyClient
        (0, { r.2.1 with
                clients := r.2.1.clients.set i
                  { c2 with active := false, socket_fd := -1 }
                client_count := r.2.1.client_count - 1 },
          [ServerEvent.bcast r.2.2])
      else
        (0, { ctx with
                clients := ctx.clients.set i { c with active := false, socket_fd := -1 }
                client_count := ctx.client_count - 1 },
          [])

/-- `notify_user_connected`: broadcast `"[Usuario u se conectó]"` as a
NOTIFICATION from `"Sistema"`, excluding `exclude_socket`. -/
def notify_user_connected (ctx : ServerContext) (username : List Nat)
    (exclude_socket : Int) (sendOk : Nat → Bool) (now : Nat) :
    ServerContext × List ServerEvent :=
  let r := broadcast_message ctx (init_message 3 SISTEMA (connText username) now)
    exclude_socket sendOk
  (r.2.1, [ServerEvent.bcast r.2.2])

/-- `notify_user_disconnected`: broadcast `"[Usuario u se desconectó]"`
as a NOTIFICATION from `"Sistema"`, excluding nobody (`-1`), with no
check of any dedup flag. -/
def notify_user_disconnected (ctx : ServerContext) (username : List Nat)
    (sendOk : Nat → Bool) (now : Nat) : ServerContext × List ServerEvent :=
  let r := broadcast_message ctx (disconnect_notice username now) (-1) sendOk
  (r.2.1, [ServerEvent.bcast r.2.2])

/-! ## Connection handler (`chat_server.c`) -/

/-- `process_client_message` for the client in slot `idx` (the C function
receives `client_info_t *client`, a pointer into the registry array;
sessions are never relocated, so the pointer is the slot index).
Returns `(return code, new context, events)`:
* `MSG_CHAT` (2): re-stamp the sender with the registered display name and
  broadcast with no exclusion (`-1`); return 0.
* `MSG_DISCONNECT` (1): set the slot's `disconnect_notified` flag,
  broadcast the disconnect notification excluding the client's own socket,
  clear the slot's `active` flag and return -1 (ends the receive loop).
* `MSG_KEEPALIVE` (5): reply in kind to the sender only; return 0.
* anything else: log and ignore; return 0. -/
def process_client_message (ctx : ServerContext) (idx : Nat)
    (msg : ChatMessage) (sendOk : Nat → Bool) (now : Nat) :
    Int × ServerContext × List ServerEvent :=
  let client := ctx.clients.getD idx emptyClient
  if msg.type = 2 then
    let bmsg := init_message 2 client.username msg.content now
    let r := broadcast_message ctx bmsg (-1) sendOk
    (0, r.2.1, [ServerEvent.bcast r.2.2])
  else if msg.type = 1 then
    let ctx1 : ServerContext :=
      { ctx with clients := ctx.clients.set idx { client with disconnect_notified := true } }
    let note := disconnect_notice client.username now
    let r := broadcast_message ctx1 note client.socket_fd sendOk
    let c2 := r.2.1.clients.getD idx emptyClient
    (-1, { r.2.1 with clients := r.2.1.clients.set idx { c2 with active := false } },
      [ServerEvent.bcast r.2.2])
  else if msg.type = 5 then
    (0, ctx, [send_message_to_client client.socket_fd (init_message 5 SISTEMA [] now)])
  else
    (0, ctx, [])

/-- `handle_client_disconnect` for the client in slot `idx`: copy the
username (`strncpy` into a 32-byte local), call `remove_client`, then
unconditionally call `notify_user_disconnected` with the saved name. -/
def handle_client_disconnect (ctx : ServerContext) (idx : Nat)
    (sendOk : Nat → Bool) (now : Nat) : ServerContext × List ServerEvent :=
  let client := ctx.clients.getD idx emptyClient
  let username := strncpyN client.username (USERNAME_SIZE - 1) ++ [0]
  let r := remove_client ctx client.socket_fd sendOk now
  let n := notify_user_disconnected r.2.1 username sendOk now
  (n.1, r.2.2 ++ n.2)

/-- Result of the handshake phase of `handle_client_thread`. -/
structure HandshakeResult where
  registered : Option Nat
  ctx : ServerContext
  events : List ServerEvent
  terminated : Bool
deriving DecidableEq, BEq

/-- The handshake phase of `handle_client_thread`, after a first `recv`
returned the bytes `recvd`:
* if the frame fails to deserialize or is not `MSG_CONNECT`, go to
  cleanup (close the socket, thread ends) — the registry is untouched;
* if `validate_username` rejects the name, send a single ERROR frame and
  go to cleanup — the registry is untouched;
* if `add_client` fails (server full), send a single ERROR frame and go to
  cleanup;
* otherwise look the client up again, send the private welcome
  NOTIFICATION to the new socket, and broadcast the connection
  NOTIFICATION excluding the new socket; the handler then enters its
  receive loop (`terminated = false`). -/
def handle_client_handshake (ctx : ServerContext) (client_socket : Int)
    (recvd : List Nat) (sendOk : Nat → Bool) (now : Nat) : HandshakeResult :=
  match deserialize_message recvd with
  | none => ⟨none, ctx, [], true⟩
  | some msg =>
    if msg.type ≠ 0 then ⟨none, ctx, [], true⟩
    else if validate_username msg.username = false then
      ⟨none, ctx,
        [send_message_to_client client_socket (init_message 4 SISTEMA TXT_ERR_NAME now)],
        true⟩
    else
      match add_client ctx client_socket msg.username now with
      | none =>
        ⟨none, ctx,
          [send_message_to_client client_socket (init_message 4 SISTEMA TXT_ERR_FULL now)],
          true⟩
      | some (_, ctx1) =>
        match find_client ctx1 client_socket with
        | none => ⟨none, ctx1, [], true⟩
        | some j =>
          let welcome := init_message 3 SISTEMA TXT_WELCOME now
          let n := notify_user_connected ctx1 msg.username client_socket sendOk now
          ⟨some j, n.1,
            send_message_to_client client_socket welcome :: n.2, false⟩

/-! ## Concrete test fixtures (used by witness / evaluation theorems) -/

/-- Bytes of `"alice"`. -/
def aliceBytes : List Nat := [97, 108, 105, 99, 101]

/-- Bytes of `"bob"`. -/
def bobBytes : List Nat := [98, 111, 98]

/-- An occupied registry slot for socket `sock`, user `u`. -/
def mkActive (sock : Int) (u : List Nat) : ClientInfo :=
  { socket_fd := sock, username := fixStr u USERNAME_SIZE
    connect_time := 0, active := true, disconnect_notified := false }

/-- Server with alice (slot 0, socket 4) and bob (slot 1, socket 5). -/
def ctxAB : ServerContext :=
  { clients := mkActive 4 aliceBytes :: mkActive 5 bobBytes ::
      List.replicate 48 emptyClient
    client_count := 2, running := true }

/-- Server with only alice connected, on socket 7. -/
def ctxOne : ServerContext :=
  { clients := mkActive 7 aliceBytes :: List.replicate 49 emptyClient
    client_count := 1, running := true }

/-- A server that is shutting down (`running = 0`). -/
def ctxStopped : ServerContext := { ctxOne with running := false }

/-- Server filled to capacity: 50 active clients on sockets 100..149. -/
def ctxFull : ServerContext :=
  { clients := (List.range MAX_CLIENTS).map
      (fun i => mkActive (Int.ofNat i + 100) aliceBytes)
    client_count := 50, running := true }

/-- Number of broadcasts of the disconnect NOTIFICATION for user `u`
in an event log. -/
def countDisconnectNotices (evs : List ServerEvent) (u : List Nat)
    (now : Nat) : Nat :=
  evs.countP (fun e =>
    match e with
    | ServerEvent.bcast ev => ev.msg == disconnect_notice u now
    | _ => false)

/-- A CHAT frame as received from bob (sender field still "bob"). -/
def chatW : ChatMessage := init_message 2 bobBytes [104, 105] 1

/-- A CONNECT frame whose sender is `"bad n"` (contains a space). -/
def badFrame : List Nat :=
  leEnc 4 0 ++ fixLen USERNAME_SIZE (fixStr [98, 97, 100, 32, 110] USERNAME_SIZE) ++
    fixLen MESSAGE_SIZE [] ++ leEnc 8 0 ++ leEnc 8 980

/-- What `badFrame` deserializes to. -/
def badMsgW : ChatMessage :=
  { type := 0, username := fixStr [98, 97, 100, 32, 110] USERNAME_SIZE
    content := List.replicate MESSAGE_SIZE 0, timestamp := 0, length := 980 }

/-- A well-formed message fixture for the round-trip witness. -/
def rtMsgW : ChatMessage := init_message 2 aliceBytes [104, 105] 42

/-- A frame whose kind field decodes to 6 (outside the enumeration). -/
def badKindFrame : List Nat := 6 :: List.replicate 979 0

/-- What the all-zero 980-byte buffer deserializes to. -/
def zeroMsgW : ChatMessage :=
  { type := 0, username := List.replicate USERNAME_SIZE 0
    content := List.replicate MESSAGE_SIZE 0, timestamp := 0, length := 0 }

/-! ## Helper lemmas -/

theorem getD_set_self {α : Type} (l : List α) (i : Nat) (a d : α)
    (h : i < l.length) : (l.set i a).getD i d = a := by
  induction l generalizing i with
  | nil => simp at h
  | cons x rest ih =>
    cases i with
    | zero => simp
    | succ i => simpa using ih i (by simpa using h)

theorem getD_set_ne {α : Type} (l : List α) (i j : Nat) (a d : α)
    (h : i ≠ j) : (l.set i a).getD j d = l.getD j d := by
  induction l generalizing i j with
  | nil => simp
  | cons x rest ih =>
    cases i with
    | zero =>
      cases j with
      | zero => exact absurd rfl h
      | succ j => simp
    | succ i =>
      cases j with
      | zero => simp
      | succ j => simpa using ih i j (by omega)

theorem findSlot_some {p : ClientInfo → Bool} {l : List ClientInfo} {i : Nat}
    (h : findSlot p l = some i) :
    i < l.length ∧ p (l.getD i emptyClient) = true ∧
      ∀ j, j < i → p (l.getD j emptyClient) = false := by
  induction l generalizing i with
  | nil => simp [findSlot] at h
  | cons c rest ih =>
    cases hc : p c with
    | true =>
      simp only [findSlot, hc, if_true] at h
      obtain rfl : i = 0 := by simpa using h.symm
      refine ⟨by simp, by simpa using hc, ?_⟩
      intro j hj; omega
    | false =>
      simp only [findSlot, hc, Bool.false_eq_true, if_false,
        Option.map_eq_some'] at h
      obtain ⟨i', hi', rfl⟩ := h
      obtain ⟨h1, h2, h3⟩ := ih hi'
      refine ⟨by simpa using h1, by simpa using h2, ?_⟩
      intro j hj
      cases j with
      | zero => simpa using hc
      | succ j => simpa using h3 j (by omega)

theorem findSlot_eq_none {p : ClientInfo → Bool} {l : List ClientInfo}
    (h : findSlot p l = none) : ∀ c ∈ l, p c = false := by
  induction l with
  | nil => simp
  | cons c rest ih =>
    cases hc : p c with
    | true => simp [findSlot, hc] at h
    | false =>
      simp only [findSlot, hc, Bool.false_eq_true, if_false,
        Option.map_eq_none'] at h
      intro x hx
      rcases List.mem_cons.mp hx with rfl | hx
      · exact hc
      · exact ih h x hx

theorem findSlot_isSome {p : ClientInfo → Bool} {l : List ClientInfo} {j : Nat}
    (hj : j < l.length) (hp : p (l.getD j emptyClient) = true) :
    ∃ i, findSlot p l = some i := by
  cases hf : findSlot p l with
  | some i => exact ⟨i, rfl⟩
  | none =>
    have := findSlot_eq_none hf (l.getD j emptyClient)
      (by rw [List.getD_eq_getElem _ _ hj]; exact List.getElem_mem hj)
    rw [this] at hp
    cases hp

theorem leEnc_length (k n : Nat) : (leEnc k n).length = k := by
  induction k generalizing n with
  | zero => rfl
  | succ k ih => simp [leEnc, ih]

theorem leDec_leEnc (k n : Nat) (h : n < 256 ^ k) : leDec (leEnc k n) = n := by
  induction k generalizing n with
  | zero =>
    interval_cases n
    rfl
  | succ k ih =>
    have hdiv : n / 256 < 256 ^ k := by
      rw [Nat.div_lt_iff_lt_mul (by omega)]
      calc n < 256 ^ (k + 1) := h
        _ = 256 ^ k * 256 := by ring
    simp only [leEnc, leDec, ih (n / 256) hdiv]
    omega

theorem fixLen_length (n : Nat) (l : List Nat) : (fixLen n l).length = n := by
  simp only [fixLen, List.length_append, List.length_take, List.length_replicate]
  omega

theorem fixLen_eq_self (n : Nat) (l : List Nat) (h : l.length = n) :
    fixLen n l = l := by
  subst h
  simp [fixLen]

theorem take_append_exact {α : Type} (a b : List α) : (a ++ b).take a.length = a :=
  List.take_left a b

theorem drop_append_exact {α : Type} (a b : List α) : (a ++ b).drop a.length = b :=
  List.drop_left a b

theorem cString_set_last (l : List Nat) (hz : ∃ i, i < l.length ∧ l.getD i 1 = 0) :
    cString (l.set (l.length - 1) 0) = cString l := by
  induction l with
  | nil => rfl
  | cons b rest ih =>
    by_cases hb : b = 0
    · subst hb
      cases rest with
      | nil => rfl
      | cons x xs =>
        have : (0 :: x :: xs).length - 1 = (x :: xs).length := by simp
        rw [this]
        show cString (((0 : Nat) :: x :: xs).set ((x :: xs).length - 1 + 1) 0) = _
        simp [cString, List.takeWhile]
    · obtain ⟨i, hi, hgd⟩ := hz
      have hrest : ∃ i, i < rest.length ∧ rest.getD i 1 = 0 := by
        cases i with
        | zero => simp [List.getD] at hgd; omega
        | succ i => exact ⟨i, by simpa using hi, by simpa using hgd⟩
      have hlen : rest.length ≠ 0 := by
        obtain ⟨i0, hi0, _⟩ := hrest; omega
      have hidx : (b :: rest).length - 1 = rest.length - 1 + 1 := by
        simp; omega
      rw [hidx]
      show cString (b :: rest.set (rest.length - 1) 0) = cString (b :: rest)
      simp only [cString, List.takeWhile]
      have hb' : (b ≠ 0) = True := by simp [hb]
      simp only [decide_eq_true_eq] at *
      simp only [decide_eq_true (show b ≠ 0 from hb)]
      exact congrArg (b :: ·) (ih hrest)

theorem broadcastLoop_get? (sendOk : Nat → Bool) (exclude : Int) :
    ∀ (cs : List ClientInfo) (k i : Nat),
      (broadcastLoop sendOk exclude k cs).2.1.get? i =
        (cs.get? i).map (fun c =>
          if c.active = true ∧ c.socket_fd ≠ exclude ∧ sendOk (k + i) = false
          then { c with active := false } else c) := by
  intro cs
  induction cs with
  | nil => intro k i; simp [broadcastLoop]
  | cons c rest ih =>
    intro k i
    by_cases h1 : c.active = true ∧ c.socket_fd ≠ exclude
    · cases h2 : sendOk k with
      | true =>
        simp only [broadcastLoop, if_pos h1, h2, if_true]
        cases i with
        | zero =>
          simp only [List.get?_cons_zero, Option.map_some', Nat.add_zero, h2]
          simp [h1.1, h1.2]
        | succ i =>
          simp only [List.get?_cons_succ, ih (k + 1) i]
          have : k + 1 + i = k + (i + 1) := by omega
          rw [this]
      | false =>
        simp only [broadcastLoop, if_pos h1, h2, Bool.false_eq_true, if_false]
        cases i with
        | zero =>
          simp only [List.get?_cons_zero, Option.map_some', Nat.add_zero, h2]
          simp [h1.1, h1.2]
        | succ i =>
          simp only [List.get?_cons_succ, ih (k + 1) i]
          have : k + 1 + i = k + (i + 1) := by omega
          rw [this]
    · simp only [broadcastLoop, if_neg h1]
      cases i with
      | zero =>
        simp only [List.get?_cons_zero, Option.map_some', Nat.add_zero]
        have : ¬(c.active = true ∧ c.socket_fd ≠ exclude ∧ sendOk k = false) := by
          intro hx; exact h1 ⟨hx.1, hx.2.1⟩
        simp [this]
      | succ i =>
        simp only [List.get?_cons_succ, ih (k + 1) i]
        have : k + 1 + i = k + (i + 1) := by omega
        rw [this]

theorem broadcastLoop_length (sendOk : Nat → Bool) (exclude : Int) :
    ∀ (cs : List ClientInfo) (k : Nat),
      (broadcastLoop sendOk exclude k cs).2.1.length = cs.length := by
  intro cs
  induction cs with
  | nil => intro k; rfl
  | cons c rest ih =>
    intro k
    by_cases h1 : c.active = true ∧ c.socket_fd ≠ exclude
    · cases h2 : sendOk k with
      | true => simp only [broadcastLoop, if_pos h1, h2, if_true, List.length_cons, ih]
      | false =>
        simp only [broadcastLoop, if_pos h1, h2, Bool.false_eq_true, if_false,
          List.length_cons, ih]
    · simp only [broadcastLoop, if_neg h1, List.length_cons, ih]

theorem broadcastLoop_attempted (sendOk : Nat → Bool) (exclude : Int) :
    ∀ (cs : List ClientInfo) (k j : Nat) (fd : Int),
      ((j, fd) ∈ (broadcastLoop sendOk exclude k cs).2.2.1 ↔
        ∃ i c, cs.get? i = some c ∧ j = k + i ∧ c.active = true ∧
          c.socket_fd = fd ∧ fd ≠ exclude) := by
  intro cs
  induction cs with
  | nil =>
    intro k j fd
    simp [broadcastLoop]
  | cons c rest ih =>
    intro k j fd
    have hstep : ∀ (att : List (Nat × Int)), (j, fd) ∈ att →
        (∃ i c', rest.get? i = some c' ∧ j = k + 1 + i ∧ c'.active = true ∧
          c'.socket_fd = fd ∧ fd ≠ exclude) →
        ∃ i c', (c :: rest).get? i = some c' ∧ j = k + i ∧ c'.active = true ∧
          c'.socket_fd = fd ∧ fd ≠ exclude := by
      intro _ _ hex
      obtain ⟨i, c', hg, hj, ha, hs, hne⟩ := hex
      exact ⟨i + 1, c', by simpa using hg, by omega, ha, hs, hne⟩
    by_cases h1 : c.active = true ∧ c.socket_fd ≠ exclude
    · have key : ((j, fd) ∈ (k, c.socket_fd) ::
            (broadcastLoop sendOk exclude (k + 1) rest).2.2.1 ↔
          ∃ i c', (c :: rest).get? i = some c' ∧ j = k + i ∧ c'.active = true ∧
            c'.socket_fd = fd ∧ fd ≠ exclude) := by
        constructor
        · intro hm
          rcases List.mem_cons.mp hm with heq | hm'
          · rw [Prod.mk.injEq] at heq
            obtain ⟨rfl, rfl⟩ := heq
            exact ⟨0, c, rfl, by omega, h1.1, rfl, h1.2⟩
          · obtain ⟨i, c', hg, hj, ha, hs, hne⟩ := (ih (k + 1) j fd).mp hm'
            exact ⟨i + 1, c', by simpa using hg, by omega, ha, hs, hne⟩
        · rintro ⟨i, c', hg, hj, ha, hs, hne⟩
          cases i with
          | zero =>
            obtain rfl : c' = c := by simpa using hg.symm
            have : j = k := by omega
            subst this
            exact List.mem_cons.mpr (Or.inl (by rw [hs]))
          | succ i =>
            refine List.mem_cons.mpr (Or.inr ((ih (k + 1) j fd).mpr ?_))
            exact ⟨i, c', by simpa using hg, by omega, ha, hs, hne⟩
      cases h2 : sendOk k with
      | true =>
        simpa only [broadcastLoop, if_pos h1, h2, if_true] using key
      | false =>
        simpa only [broadcastLoop, if_pos h1, h2, Bool.false_eq_true, if_false] using key
    · simp only [broadcastLoop, if_neg h1]
      constructor
      · intro hm
        exact hstep _ hm ((ih (k + 1) j fd).mp hm)
      · rintro ⟨i, c', hg, hj, ha, hs, hne⟩
        cases i with
        | zero =>
          obtain rfl : c' = c := by simpa using hg.symm
          exact absurd ⟨ha, by rw [hs]; exact hne⟩ h1
        | succ i =>
          exact (ih (k + 1) j fd).mpr ⟨i, c', by simpa using hg, by omega, ha, hs, hne⟩

theorem broadcastLoop_count (sendOk : Nat → Bool) (exclude : Int) :
    ∀ (cs : List ClientInfo) (k : Nat),
      (broadcastLoop sendOk exclude k cs).1 +
        (broadcastLoop sendOk exclude k cs).2.2.1.countP (fun p => !sendOk p.1) =
        (broadcastLoop sendOk exclude k cs).2.2.1.length := by
  intro cs
  induction cs with
  | nil => intro k; rfl
  | cons c rest ih =>
    intro k
    by_cases h1 : c.active = true ∧ c.socket_fd ≠ exclude
    · cases h2 : sendOk k with
      | true =>
        simp only [broadcastLoop, if_pos h1, h2, if_true, List.countP_cons,
          List.length_cons, h2, Bool.not_true]
        have := ih (k + 1)
        simp only [Bool.false_eq_true, if_false, Nat.add_zero]
        omega
      | false =>
        simp only [broadcastLoop, if_pos h1, h2, Bool.false_eq_true, if_false,
          List.countP_cons, List.length_cons, h2, Bool.not_false, if_true]
        have := ih (k + 1)
        omega
    · simp only [broadcastLoop, if_neg h1]
      exact ih (k + 1)

theorem broadcastLoop_delivered (sendOk : Nat → Bool) (exclude : Int) :
    ∀ (cs : List ClientInfo) (k : Nat),
      (broadcastLoop sendOk exclude k cs).2.2.2 =
        ((broadcastLoop sendOk exclude k cs).2.2.1.filter
          (fun p => sendOk p.1)).map (fun p => p.2) := by
  intro cs
  induction cs with
  | nil => intro k; rfl
  | cons c rest ih =>
    intro k
    by_cases h1 : c.active = true ∧ c.socket_fd ≠ exclude
    · cases h2 : sendOk k with
      | true =>
        simp only [broadcastLoop, if_pos h1, h2, if_true, List.filter_cons, h2,
          List.map_cons, ih (k + 1)]
      | false =>
        simp only [broadcastLoop, if_pos h1, h2, Bool.false_eq_true, if_false,
          List.filter_cons, h2, ih (k + 1)]
    · simp only [broadcastLoop, if_neg h1]
      exact ih (k + 1)

theorem broadcastLoop_allOk (exclude : Int) :
    ∀ (cs : List ClientInfo) (k : Nat),
      (broadcastLoop (fun _ => true) exclude k cs).2.1 = cs := by
  intro cs
  induction cs with
  | nil => intro k; rfl
  | cons c rest ih =>
    intro k
    by_cases h1 : c.active = true ∧ c.socket_fd ≠ exclude
    · simp only [broadcastLoop, if_pos h1, if_true, ih (k + 1)]
    · simp only [broadcastLoop, if_neg h1, ih (k + 1)]

/-- `serialize_message` never fails on the `BUFFER_SIZE` stack buffers the
server uses (`BUFFER_SIZE ≥ sizeof(chat_message_t)`), so `broadcast_message`
always runs its send loop. -/
theorem broadcast_message_eq (ctx : ServerContext) (msg : ChatMessage)
    (exclude_socket : Int) (sendOk : Nat → Bool) :
    broadcast_message ctx msg exclude_socket sendOk =
      ((broadcastLoop sendOk exclude_socket 0 ctx.clients).1,
       { ctx with clients := (broadcastLoop sendOk exclude_socket 0 ctx.clients).2.1 },
       ⟨msg, exclude_socket,
        (broadcastLoop sendOk exclude_socket 0 ctx.clients).2.2.1,
        (broadcastLoop sendOk exclude_socket 0 ctx.clients).2.2.2⟩) := by
  have hser : serialize_message msg BUFFER_SIZE =
      some (leEnc 4 msg.type ++ fixLen USERNAME_SIZE msg.username ++
        fixLen MESSAGE_SIZE msg.content ++ leEnc 8 msg.timestamp ++
        leEnc 8 msg.length) := by
    simp [serialize_message, BUFFER_SIZE, FRAME_SIZE, USERNAME_SIZE, MESSAGE_SIZE]
  rw [broadcast_message, hser]

/-! ## Claim theorems -/

/-- C10: if the server context's `running` flag is false, `remove_client`
returns 0 immediately and leaves the registry entirely unchanged — no slot
is marked inactive, no socket is closed, `client_count` is not
decremented, and no disconnect notification is broadcast (empty event
log): during shutdown a remove reports success without any of remove's
specified effects. -/
theorem claim_C10_remove_noop_when_stopped (ctx : ServerContext)
    (client_socket : Int) (sendOk : Nat → Bool) (now : Nat)
    (h : ctx.running = false) :
    remove_client ctx client_socket sendOk now = (0, ctx, []) := by
  rw [remove_client, h]
  simp

/-- Witness for C10 at a concrete stopped server. -/
theorem claim_C10_remove_noop_when_stopped_witness :
    remove_client ctxStopped 7 (fun _ => true) 0 = (0, ctxStopped, []) :=
  claim_C10_remove_noop_when_stopped ctxStopped 7 (fun _ => true) 0 rfl

set_option maxRecDepth 100000 in
/-- C1 (code bug): the disconnect NOTIFICATION is NOT broadcast at most
once.  On the handler's own cleanup path, `handle_client_disconnect`
first calls `remove_client` — which performs the flag-guarded notification
broadcast — and then unconditionally calls `notify_user_disconnected`,
which broadcasts the same notification again with no check of the
`disconnect_notified` flag.  Evaluating the cleanup path for alice
(slot 0, socket 4, bob still connected, every send succeeding) shows the
disconnect notification for alice broadcast exactly twice in a single,
purely sequential execution. -/
theorem claim_C1_disconnect_notice_duplicated :
    countDisconnectNotices
      (handle_client_disconnect ctxAB 0 (fun _ => true) 77).2
      aliceBytes 77 = 2 := by
  decide

set_option maxRecDepth 100000 in
/-- C2 (code bug): `broadcast_message` does not preserve the equality
`client_count = number of active slots`.  Starting from a registry where
the invariant holds (one active client, `client_count = 1`), a broadcast
in which the send fails marks the peer's slot inactive (lazy eviction)
without decrementing `client_count`, leaving `client_count = 1` against
zero active slots. -/
theorem claim_C2_count_invariant_broken_by_failed_send :
    ctxOne.client_count = (countActive ctxOne.clients : Int) ∧
    (broadcast_message ctxOne chatW (-1) (fun _ => false)).2.1.client_count ≠
      (countActive (broadcast_message ctxOne chatW (-1)
        (fun _ => false)).2.1.clients : Int) := by
  constructor
  · decide
  · decide

/-- C6: `deserialize_message` fails on every buffer shorter than the
fixed frame size and on every buffer whose kind field (the first four
bytes, read as the C `int` enum value) lies outside the six-value
enumeration; whenever it succeeds, the resulting message's `username` and
`content` are NUL-terminated within their 32-byte and
`MESSAGE_SIZE`-byte bounds, regardless of the input bytes. -/
theorem claim_C6_deserialize_validation :
    (∀ buffer : List Nat, buffer.length < FRAME_SIZE →
      deserialize_message buffer = none) ∧
    (∀ buffer : List Nat, 5 < leDec (buffer.take 4) →
      deserialize_message buffer = none) ∧
    (∀ buffer m, deserialize_message buffer = some m →
      m.username.length = USERNAME_SIZE ∧
      (∃ i, i < USERNAME_SIZE ∧ m.username.getD i 1 = 0) ∧
      m.content.length = MESSAGE_SIZE ∧
      (∃ i, i < MESSAGE_SIZE ∧ m.content.getD i 1 = 0)) := by
  refine ⟨?_, ?_, ?_⟩
  · intro buffer h
    rw [deserialize_message, if_pos h]
  · intro buffer h
    rw [deserialize_message]
    by_cases hl : buffer.length < FRAME_SIZE
    · rw [if_pos hl]
    · rw [if_neg hl, if_pos h]
  · intro buffer m h
    rw [deserialize_message] at h
    by_cases hl : buffer.length < FRAME_SIZE
    · rw [if_pos hl] at h; cases h
    · rw [if_neg hl] at h
      by_cases ht : 5 < leDec (buffer.take 4)
      · rw [if_pos ht] at h; cases h
      · rw [if_neg ht] at h
        have hm := Option.some.inj h
        subst hm
        have hbl : FRAME_SIZE ≤ buffer.length := by omega
        have hlu : ((buffer.drop 4).take USERNAME_SIZE).length = USERNAME_SIZE := by
          simp only [List.length_take, List.length_drop]
          have : FRAME_SIZE = 980 := by decide
          have : USERNAME_SIZE = 32 := by decide
          omega
        have hlc : (((buffer.drop 4).drop USERNAME_SIZE).take MESSAGE_SIZE).length =
            MESSAGE_SIZE := by
          simp only [List.length_take, List.length_drop]
          have : FRAME_SIZE = 980 := by decide
          have : USERNAME_SIZE = 32 := by decide
          have : MESSAGE_SIZE = 928 := by decide
          omega
        refine ⟨by simpa using hlu, ⟨USERNAME_SIZE - 1, by decide, ?_⟩,
          by simpa using hlc, ⟨MESSAGE_SIZE - 1, by decide, ?_⟩⟩
        · exact getD_set_self _ _ _ _ (by rw [hlu]; decide)
        · exact getD_set_self _ _ _ _ (by rw [hlc]; decide)

set_option maxRecDepth 100000 in
/-- Witness for C6: the empty buffer and a 979-byte buffer are rejected;
a 980-byte buffer with kind 6 is rejected; the all-zero 980-byte buffer
deserializes, and the claim's theorem yields the NUL-termination bounds
of the result. -/
theorem claim_C6_deserialize_validation_witness :
    deserialize_message [] = none ∧
    deserialize_message (List.replicate 979 0) = none ∧
    deserialize_message badKindFrame = none ∧
    (∃ i, i < USERNAME_SIZE ∧ zeroMsgW.username.getD i 1 = 0) := by
  obtain ⟨h1, h2, h3⟩ := claim_C6_deserialize_validation
  refine ⟨h1 [] (by decide), h1 (List.replicate 979 0)
    (by rw [List.length_replicate]; decide), ?_, ?_⟩
  · exact h2 badKindFrame (by decide)
  · have hm : deserialize_message (List.replicate 980 0) = some zeroMsgW := by decide
    obtain ⟨_, hz, _, _⟩ := h3 _ zeroMsgW hm
    exact hz

/-- C9: whenever `add_client` succeeds, it registers the new session in
the slot with the lowest index whose `active` flag is clear, returns that
index, and leaves everything else unchanged apart from incrementing
`client_count`. -/
theorem claim_C9_lowest_free_slot (ctx : ServerContext) (client_socket : Int)
    (username : List Nat) (now : Nat) (i : Nat) (ctx' : ServerContext)
    (h : add_client ctx client_socket username now = some (i, ctx')) :
    i < ctx.clients.length ∧
    (ctx.clients.getD i emptyClient).active = false ∧
    (∀ j, j < i → (ctx.clients.getD j emptyClient).active = true) ∧
    ctx'.clients = ctx.clients.set i
      { socket_fd := client_socket
        username := fixStr username USERNAME_SIZE
        connect_time := now, active := true, disconnect_notified := false } ∧
    ctx'.client_count = ctx.client_count + 1 ∧
    ctx'.running = ctx.running := by
  rw [add_client] at h
  by_cases hcap : (MAX_CLIENTS : Int) ≤ ctx.client_count
  · rw [if_pos hcap] at h; cases h
  · rw [if_neg hcap] at h
    cases hf : findSlot (fun c => !c.active) ctx.clients with
    | none => rw [hf] at h; cases h
    | some i0 =>
      rw [hf] at h
      obtain ⟨rfl, rfl⟩ : i0 = i ∧ _ = ctx' := by
        have := Option.some.inj h
        exact ⟨congrArg Prod.fst this, congrArg Prod.snd this⟩
      obtain ⟨hb, hp, hlt⟩ := findSlot_some hf
      refine ⟨hb, by simpa using hp, ?_, rfl, rfl, rfl⟩
      intro j hj
      have := hlt j hj
      simpa using this

set_option maxRecDepth 100000 in
/-- Witness for C9: on a server where slot 0 is taken and slot 1 free,
`add_client` picks slot 1. -/
theorem claim_C9_lowest_free_slot_witness :
    (ctxOne.clients.getD 1 emptyClient).active = false ∧
    (∀ j, j < 1 → (ctxOne.clients.getD j emptyClient).active = true) := by
  have h := claim_C9_lowest_free_slot ctxOne 9 bobBytes 3 1
    { ctxOne with
        clients := ctxOne.clients.set 1
          { socket_fd := 9, username := fixStr bobBytes USERNAME_SIZE
            connect_time := 3, active := true, disconnect_notified := false }
        client_count := 2 }
    (by decide)
  exact ⟨h.2.1, h.2.2.1⟩

/-- C4: for every registry state, message and excluded socket `s`,
`broadcast_message` (i) attempts a send exactly on the currently-active
slots whose socket differs from `s` — so it never sends to `s` and does
not skip any other active slot; (ii) never delivers to `s`;
(iii) returns a `sent_count` equal to the number of attempted sends minus
the number of those whose send failed; and (iv) a mid-broadcast send
failure marks exactly that peer's slot inactive — every other slot, the
`client_count` field and the `running` flag are unchanged, and delivery
to the remaining peers proceeds. -/
theorem claim_C4_broadcast_spec (ctx : ServerContext) (msg : ChatMessage)
    (s : Int) (sendOk : Nat → Bool) :
    (∀ j fd, ((j, fd) ∈ (broadcast_message ctx msg s sendOk).2.2.attempted ↔
      ∃ c, ctx.clients.get? j = some c ∧ c.active = true ∧
        c.socket_fd = fd ∧ fd ≠ s)) ∧
    (∀ fd, fd ∈ (broadcast_message ctx msg s sendOk).2.2.delivered → fd ≠ s) ∧
    ((broadcast_message ctx msg s sendOk).1 +
      (broadcast_message ctx msg s sendOk).2.2.attempted.countP
        (fun p => !sendOk p.1) =
      (broadcast_message ctx msg s sendOk).2.2.attempted.length) ∧
    (∀ i, (broadcast_message ctx msg s sendOk).2.1.clients.get? i =
      (ctx.clients.get? i).map (fun c =>
        if c.active = true ∧ c.socket_fd ≠ s ∧ sendOk i = false
        then { c with active := false } else c)) ∧
    (broadcast_message ctx msg s sendOk).2.1.client_count = ctx.client_count ∧
    (broadcast_message ctx msg s sendOk).2.1.running = ctx.running := by
  rw [broadcast_message_eq]
  refine ⟨?_, ?_, ?_, ?_, rfl, rfl⟩
  · intro j fd
    rw [broadcastLoop_attempted sendOk s ctx.clients 0 j fd]
    constructor
    · rintro ⟨i, c, hg, hj, ha, hs, hne⟩
      obtain rfl : j = i := by omega
      exact ⟨c, hg, ha, hs, hne⟩
    · rintro ⟨c, hg, ha, hs, hne⟩
      exact ⟨j, c, hg, by omega, ha, hs, hne⟩
  · intro fd hfd
    rw [broadcastLoop_delivered sendOk s ctx.clients 0] at hfd
    obtain ⟨p, hp, rfl⟩ := List.mem_map.mp hfd
    have hp' := List.mem_filter.mp hp
    obtain ⟨i, c, _, _, _, hs, hne⟩ :=
      (broadcastLoop_attempted sendOk s ctx.clients 0 p.1 p.2).mp
        (by cases p; exact hp'.1)
    exact hne
  · exact broadcastLoop_count sendOk s ctx.clients 0
  · intro i
    simpa using broadcastLoop_get? sendOk s ctx.clients 0 i

/-- Witness for C4: broadcasting to the two-client server excluding bob's
socket 5 attempts exactly alice's slot and never delivers to 5. -/
theorem claim_C4_broadcast_spec_witness :
    ((0, (4 : Int)) ∈
      (broadcast_message ctxAB chatW 5 (fun _ => true)).2.2.attempted) ∧
    ((4 : Int) ≠ 5) ∧
    ¬((1, (5 : Int)) ∈
      (broadcast_message ctxAB chatW 5 (fun _ => true)).2.2.attempted) := by
  obtain ⟨hatt, hdel, hcnt, hpost, hcc, hrun⟩ :=
    claim_C4_broadcast_spec ctxAB chatW 5 (fun _ => true)
  refine ⟨?_, by decide, ?_⟩
  · exact (hatt 0 4).mpr ⟨mkActive 4 aliceBytes, by decide, by decide, by decide, by decide⟩
  · intro hmem
    obtain ⟨c, hg, ha, hs, hne⟩ := (hatt 1 5).mp hmem
    exact hne rfl

theorem getD_of_get? {α : Type} {l : List α} {i : Nat} {a : α} (d : α)
    (h : l.get? i = some a) : l.getD i d = a := by
  induction l generalizing i with
  | nil => simp at h
  | cons x rest ih =>
    cases i with
    | zero => simpa using h
    | succ i => simpa using ih (by simpa using h)

/-- C7: for every CHAT frame received from a registered client, the
server broadcasts one CHAT message whose sender field is the client's
registered display name — the sender field carried in the received frame
does not occur in the result — with no socket excluded (`-1`), so the
sending client's own active slot is among the delivery targets and, when
its send succeeds, it receives its own echo. -/
theorem claim_C7_chat_restamp_echo (ctx : ServerContext) (idx : Nat)
    (client : ClientInfo) (msg : ChatMessage) (sendOk : Nat → Bool) (now : Nat)
    (hc : ctx.clients.get? idx = some client) (hmsg : msg.type = 2)
    (hfd : client.socket_fd ≠ -1) :
    process_client_message ctx idx msg sendOk now =
      (0,
       (broadcast_message ctx (init_message 2 client.username msg.content now)
         (-1) sendOk).2.1,
       [ServerEvent.bcast (broadcast_message ctx
         (init_message 2 client.username msg.content now) (-1) sendOk).2.2]) ∧
    (broadcast_message ctx (init_message 2 client.username msg.content now)
        (-1) sendOk).2.2.msg.username = fixStr client.username USERNAME_SIZE ∧
    (broadcast_message ctx (init_message 2 client.username msg.content now)
        (-1) sendOk).2.2.exclude = -1 ∧
    (client.active = true → sendOk idx = true →
      client.socket_fd ∈ (broadcast_message ctx
        (init_message 2 client.username msg.content now) (-1) sendOk).2.2.delivered) := by
  have hgd : ctx.clients.getD idx emptyClient = client := getD_of_get? _ hc
  refine ⟨?_, ?_, ?_, ?_⟩
  · rw [process_client_message]
    simp only [hgd, hmsg]
    rfl
  · rw [broadcast_message_eq]
    rfl
  · rw [broadcast_message_eq]
  · intro ha hok
    rw [broadcast_message_eq]
    show client.socket_fd ∈ (broadcastLoop sendOk (-1) 0 ctx.clients).2.2.2
    rw [broadcastLoop_delivered sendOk (-1) ctx.clients 0]
    refine List.mem_map.mpr ⟨(idx, client.socket_fd), List.mem_filter.mpr ⟨?_, ?_⟩, rfl⟩
    · exact (broadcastLoop_attempted sendOk (-1) ctx.clients 0 idx
        client.socket_fd).mpr ⟨idx, client, hc, by omega, ha, rfl, hfd⟩
    · simpa using hok

set_option maxRecDepth 100000 in
/-- Witness for C7: bob's CHAT frame processed for alice (slot 0) yields
one broadcast excluding nobody, and alice's socket 4 receives the echo. -/
theorem claim_C7_chat_restamp_echo_witness :
    (broadcast_message ctxAB
        (init_message 2 (mkActive 4 aliceBytes).username chatW.content 1)
        (-1) (fun _ => true)).2.2.exclude = -1 ∧
    (4 : Int) ∈ (broadcast_message ctxAB
        (init_message 2 (mkActive 4 aliceBytes).username chatW.content 1)
        (-1) (fun _ => true)).2.2.delivered := by
  obtain ⟨h1, h2, h3, h4⟩ := claim_C7_chat_restamp_echo ctxAB 0
    (mkActive 4 aliceBytes) chatW (fun _ => true) 1 (by decide) (by decide) (by decide)
  exact ⟨h3, h4 (by decide) rfl⟩

/-- C8: a handshake whose CONNECT frame's sender fails name validation —
that is, whose sender C string is empty, is `USERNAME_SIZE` (32) bytes or
longer, or contains a byte other than ASCII letters, digits and
underscore — makes the server send one ERROR frame to that connection and
terminate it without ever touching the registry (the context, and hence
the active count, is unchanged, and no slot is registered). -/
theorem claim_C8_bad_username_rejected :
    (∀ u, validate_username u = false ↔
      (cString u = [] ∨ USERNAME_SIZE ≤ (cString u).length ∨
        ∃ c ∈ cString u,
          ¬((97 ≤ c ∧ c ≤ 122) ∨ (65 ≤ c ∧ c ≤ 90) ∨ (48 ≤ c ∧ c ≤ 57) ∨ c = 95))) ∧
    (∀ (ctx : ServerContext) (sock : Int) (recvd : List Nat)
        (sendOk : Nat → Bool) (now : Nat) (msg : ChatMessage),
      deserialize_message recvd = some msg → msg.type = 0 →
      validate_username msg.username = false →
      handle_client_handshake ctx sock recvd sendOk now =
        ⟨none, ctx,
         [ServerEvent.sent sock (init_message 4 SISTEMA TXT_ERR_NAME now)],
         true⟩) := by
  constructor
  · intro u
    constructor
    · intro hv
      by_cases h0 : (cString u).length = 0
      · exact Or.inl (List.length_eq_zero.mp h0)
      · by_cases h1 : USERNAME_SIZE ≤ (cString u).length
        · exact Or.inr (Or.inl h1)
        · refine Or.inr (Or.inr ?_)
          simp only [validate_username] at hv
          rw [if_neg h0, if_neg h1] at hv
          obtain ⟨c, hcmem, hcp⟩ := List.all_eq_false.mp hv
          exact ⟨c, hcmem, by simpa [isNameByte] using hcp⟩
    · intro h
      rcases h with h | h | ⟨c, hcmem, hcp⟩
      · simp [validate_username, h]
      · by_cases h0 : (cString u).length = 0
        · simp [validate_username, h0]
        · simp [validate_username, h0, h]
      · by_cases h0 : (cString u).length = 0
        · simp [validate_username, h0]
        · by_cases h1 : USERNAME_SIZE ≤ (cString u).length
          · simp [validate_username, h0, h1]
          · simp only [validate_username]
            rw [if_neg h0, if_neg h1]
            exact List.all_eq_false.mpr ⟨c, hcmem, by simpa [isNameByte] using hcp⟩
  · intro ctx sock recvd sendOk now msg hdes hty hval
    rw [handle_client_handshake, hdes]
    simp only [hty]
    simp [hval, send_message_to_client]

set_option maxRecDepth 100000 in
/-- Witness for C8: the CONNECT frame with sender `"bad n"` is rejected
with an ERROR frame, the handler terminates, and the registry is
untouched. -/
theorem claim_C8_bad_username_rejected_witness :
    handle_client_handshake ctxAB 9 badFrame (fun _ => true) 3 =
      ⟨none, ctxAB,
       [ServerEvent.sent 9 (init_message 4 SISTEMA TXT_ERR_NAME 3)], true⟩ :=
  claim_C8_bad_username_rejected.2 ctxAB 9 badFrame (fun _ => true) 3 badMsgW
    (by decide) (by decide) (by decide)

/-- C3: round-trip.  For every message whose kind is one of the six
enumeration values and whose `username` and `content` arrays are
well-formed (32 resp. `MESSAGE_SIZE` bytes, NUL-terminated within their
bounds) and whose numeric fields fit their machine words,
`serialize_message` into a buffer of at least the frame size succeeds
with exactly `FRAME_SIZE` bytes, and `deserialize_message` of that frame
succeeds and returns the same message: the kind, timestamp and length
fields are recovered exactly, and the sender and body are recovered
exactly as the NUL-terminated strings they carry (`decode` re-forces the
final NUL, which never changes a string that was already NUL-terminated
within bounds). -/
theorem claim_C3_roundtrip (m : ChatMessage) (buffer_size : Nat)
    (htype : m.type ≤ 5)
    (hulen : m.username.length = USERNAME_SIZE)
    (hclen : m.content.length = MESSAGE_SIZE)
    (huz : ∃ i, i < USERNAME_SIZE ∧ m.username.getD i 1 = 0)
    (hcz : ∃ i, i < MESSAGE_SIZE ∧ m.content.getD i 1 = 0)
    (hts : m.timestamp < 2 ^ 64)
    (hlen : m.length < 2 ^ 64)
    (hbuf : FRAME_SIZE ≤ buffer_size) :
    ∃ frame m', serialize_message m buffer_size = some frame ∧
      frame.length = FRAME_SIZE ∧
      deserialize_message frame = some m' ∧
      m'.type = m.type ∧
      cString m'.username = cString m.username ∧
      cString m'.content = cString m.content ∧
      m'.timestamp = m.timestamp ∧ m'.length = m.length := by
  have hser : serialize_message m buffer_size =
      some (leEnc 4 m.type ++ (m.username ++ (m.content ++
        (leEnc 8 m.timestamp ++ leEnc 8 m.length)))) := by
    rw [serialize_message, if_neg (by omega),
      fixLen_eq_self _ _ hulen, fixLen_eq_self _ _ hclen]
    simp [List.append_assoc]
  have hlenF : (leEnc 4 m.type ++ (m.username ++ (m.content ++
      (leEnc 8 m.timestamp ++ leEnc 8 m.length)))).length = FRAME_SIZE := by
    simp only [List.length_append, leEnc_length, hulen, hclen]
    decide
  have hd4 : ∀ rest : List Nat, (leEnc 4 m.type ++ rest).drop 4 = rest := by
    intro rest
    have h := drop_append_exact (leEnc 4 m.type) rest
    rwa [leEnc_length] at h
  have ht4 : ∀ rest : List Nat, (leEnc 4 m.type ++ rest).take 4 = leEnc 4 m.type := by
    intro rest
    have h := take_append_exact (leEnc 4 m.type) rest
    rwa [leEnc_length] at h
  have htu : ∀ rest : List Nat, (m.username ++ rest).take USERNAME_SIZE = m.username := by
    intro rest
    have h := take_append_exact m.username rest
    rwa [hulen] at h
  have hdu : ∀ rest : List Nat, (m.username ++ rest).drop USERNAME_SIZE = rest := by
    intro rest
    have h := drop_append_exact m.username rest
    rwa [hulen] at h
  have htc : ∀ rest : List Nat, (m.content ++ rest).take MESSAGE_SIZE = m.content := by
    intro rest
    have h := take_append_exact m.content rest
    rwa [hclen] at h
  have hdc : ∀ rest : List Nat, (m.content ++ rest).drop MESSAGE_SIZE = rest := by
    intro rest
    have h := drop_append_exact m.content rest
    rwa [hclen] at h
  have htt : ∀ rest : List Nat,
      (leEnc 8 m.timestamp ++ rest).take 8 = leEnc 8 m.timestamp := by
    intro rest
    have h := take_append_exact (leEnc 8 m.timestamp) rest
    rwa [leEnc_length] at h
  have hdt : ∀ rest : List Nat, (leEnc 8 m.timestamp ++ rest).drop 8 = rest := by
    intro rest
    have h := drop_append_exact (leEnc 8 m.timestamp) rest
    rwa [leEnc_length] at h
  have htl : (leEnc 8 m.length).take 8 = leEnc 8 m.length := by
    have h := List.take_length (leEnc 8 m.length)
    rwa [leEnc_length] at h
  refine ⟨_, ⟨m.type, m.username.set (USERNAME_SIZE - 1) 0,
    m.content.set (MESSAGE_SIZE - 1) 0, m.timestamp, m.length⟩,
    hser, hlenF, ?_, rfl, ?_, ?_, rfl, rfl⟩
  · simp only [deserialize_message]
    rw [if_neg (by rw [hlenF]; omega)]
    rw [ht4, leDec_leEnc 4 m.type (by norm_num; omega)]
    rw [if_neg (by omega)]
    rw [hd4, htu, hdu, hdc, htc, hdt, htt, htl]
    rw [leDec_leEnc 8 m.timestamp (by norm_num; omega),
      leDec_leEnc 8 m.length (by norm_num; omega)]
  · obtain ⟨iu, hiu, hiuz⟩ := huz
    have h := cString_set_last m.username ⟨iu, by rw [hulen]; exact hiu, hiuz⟩
    rwa [hulen] at h
  · obtain ⟨ic, hic, hicz⟩ := hcz
    have h := cString_set_last m.content ⟨ic, by rw [hclen]; exact hic, hicz⟩
    rwa [hclen] at h

set_option maxRecDepth 1000000 in
/-- Witness for C3 at a concrete CHAT message from alice. -/
theorem claim_C3_roundtrip_witness :
    ∃ frame m', serialize_message rtMsgW BUFFER_SIZE = some frame ∧
      frame.length = FRAME_SIZE ∧
      deserialize_message frame = some m' ∧
      m'.type = rtMsgW.type ∧
      cString m'.username = cString rtMsgW.username ∧
      cString m'.content = cString rtMsgW.content ∧
      m'.timestamp = rtMsgW.timestamp ∧ m'.length = rtMsgW.length :=
  claim_C3_roundtrip rtMsgW BUFFER_SIZE (by decide) (by decide) (by decide)
    ⟨5, by decide⟩ ⟨2, by decide⟩ (by decide) (by decide) (by decide)

/-- Closed form of `remove_client` when the server is running, the socket
is found in slot `i`, and every send of the guarded notification
broadcast succeeds: the call returns 0, rewrites only slot `i` (marking
it inactive and closing its socket) and decrements `client_count`. -/
theorem remove_client_found_allOk (ctx : ServerContext) (s : Int) (now : Nat)
    (i : Nat) (hrun : ctx.running = true)
    (hf : findSlot (fun c => c.active && c.socket_fd == s) ctx.clients = some i) :
    ∃ cNew : ClientInfo, cNew.active = false ∧
      (remove_client ctx s (fun _ => true) now).1 = 0 ∧
      (remove_client ctx s (fun _ => true) now).2.1.clients = ctx.clients.set i cNew ∧
      (remove_client ctx s (fun _ => true) now).2.1.client_count = ctx.client_count - 1 ∧
      (remove_client ctx s (fun _ => true) now).2.1.running = ctx.running := by
  have hi : i < ctx.clients.length := (findSlot_some hf).1
  rw [remove_client, if_neg (show ¬(ctx.running = false) by simp [hrun])]
  simp only [hf]
  by_cases hn : (ctx.clients.getD i emptyClient).disconnect_notified = false
  · rw [if_pos hn, broadcast_message_eq]
    simp only [broadcastLoop_allOk]
    rw [getD_set_self _ _ _ _ hi, List.set_set]
    refine ⟨{ ctx.clients.getD i emptyClient with
      disconnect_notified := true, active := false, socket_fd := -1 },
      ?_, ?_, ?_, ?_, ?_⟩ <;> trivial
  · rw [if_neg hn]
    refine ⟨{ ctx.clients.getD i emptyClient with active := false, socket_fd := -1 },
      ?_, ?_, ?_, ?_, ?_⟩ <;> trivial

/-- C5: with the server running and the registry invariant holding, when
the number of active sessions equals the capacity (`MAX_CLIENTS` = 50),
`add_client` fails; after such a failure, one successful `remove_client`
(with the guarded notification broadcast succeeding) frees exactly one
slot — the removed client's — and decreases the active count by exactly
one, after which `add_client` succeeds again. -/
theorem claim_C5_capacity (ctx : ServerContext) (s : Int) (now : Nat)
    (hrun : ctx.running = true)
    (hlen : ctx.clients.length = MAX_CLIENTS)
    (hinv : ctx.client_count = (countActive ctx.clients : Int))
    (hfull : countActive ctx.clients = MAX_CLIENTS)
    (hrem : (remove_client ctx s (fun _ => true) now).1 = 0) :
    (∀ sock uname t, add_client ctx sock uname t = none) ∧
    countActive (remove_client ctx s (fun _ => true) now).2.1.clients =
      MAX_CLIENTS - 1 ∧
    (remove_client ctx s (fun _ => true) now).2.1.client_count =
      (MAX_CLIENTS : Int) - 1 ∧
    (∃ i, i < MAX_CLIENTS ∧
      (ctx.clients.getD i emptyClient).active = true ∧
      ((remove_client ctx s (fun _ => true) now).2.1.clients.getD i
        emptyClient).active = false ∧
      ∀ j, j < MAX_CLIENTS → j ≠ i →
        (remove_client ctx s (fun _ => true) now).2.1.clients.getD j emptyClient =
          ctx.clients.getD j emptyClient) ∧
    (∀ sock uname t, ∃ p,
      add_client (remove_client ctx s (fun _ => true) now).2.1 sock uname t =
        some p) := by
  obtain ⟨i, hf⟩ : ∃ i,
      findSlot (fun c => c.active && c.socket_fd == s) ctx.clients = some i := by
    cases hfs : findSlot (fun c => c.active && c.socket_fd == s) ctx.clients with
    | some i => exact ⟨i, rfl⟩
    | none =>
      exfalso
      rw [remove_client, if_neg (show ¬(ctx.running = false) by simp [hrun])] at hrem
      simp only [hfs] at hrem
      exact absurd hrem (by decide)
  have hi : i < ctx.clients.length := (findSlot_some hf).1
  have hact : (ctx.clients.getD i emptyClient).active = true := by
    have hp := (findSlot_some hf).2.1
    exact (Bool.and_eq_true _ _ |>.mp hp).1
  obtain ⟨cNew, hcnew, hret, hcl, hcc, hcr⟩ :=
    remove_client_found_allOk ctx s now i hrun hf
  have hMC : MAX_CLIENTS = 50 := rfl
  have hcnt : countActive (ctx.clients.set i cNew) = MAX_CLIENTS - 1 := by
    rw [countActive, List.countP_set _ _ _ _ hi]
    rw [← List.getD_eq_getElem ctx.clients emptyClient hi]
    rw [hact, hcnew]
    have hcp : ctx.clients.countP (fun c => c.active) = MAX_CLIENTS := hfull
    simp only [eq_self_iff_true, if_true, Bool.false_eq_true, if_false]
    omega
  refine ⟨?_, ?_, ?_, ?_, ?_⟩
  · intro sock uname t
    rw [add_client, if_pos (by rw [hinv, hfull])]
  · rw [hcl]; exact hcnt
  · rw [hcc, hinv, hfull]
  · refine ⟨i, by omega, hact, ?_, ?_⟩
    · rw [hcl, getD_set_self _ _ _ _ hi, hcnew]
    · intro j hj hne
      rw [hcl, getD_set_ne _ _ _ _ _ (fun h => hne h.symm)]
  · intro sock uname t
    have hlen2 : (remove_client ctx s (fun _ => true) now).2.1.clients.length =
        MAX_CLIENTS := by
      rw [hcl, List.length_set, hlen]
    have hfree : (fun c => !c.active)
        ((remove_client ctx s (fun _ => true) now).2.1.clients.getD i emptyClient) = true := by
      show (!((remove_client ctx s (fun _ => true) now).2.1.clients.getD i emptyClient).active) = true
      rw [hcl, getD_set_self _ _ _ _ hi]
      simp [hcnew]
    have hi2 : i < (remove_client ctx s (fun _ => true) now).2.1.clients.length := by
      rw [hlen2]
      rw [hlen] at hi
      exact hi
    obtain ⟨i2, hf2⟩ := @findSlot_isSome (fun c => !c.active)
      ((remove_client ctx s (fun _ => true) now).2.1.clients) i hi2 hfree
    rw [add_client, if_neg (by rw [hcc, hinv, hfull]; decide), hf2]
    exact ⟨_, rfl⟩

set_option maxRecDepth 1000000 in
/-- Witness for C5 on the 50-client full server: the 51st insert fails,
removing socket 103 returns 0 and frees one slot, and an insert succeeds
again. -/
theorem claim_C5_capacity_witness :
    add_client ctxFull 7 bobBytes 0 = none ∧
    countActive (remove_client ctxFull 103 (fun _ => true) 0).2.1.clients =
      MAX_CLIENTS - 1 ∧
    (∃ p, add_client (remove_client ctxFull 103 (fun _ => true) 0).2.1 7
      bobBytes 0 = some p) := by
  obtain ⟨h1, h2, h3, h4, h5⟩ := claim_C5_capacity ctxFull 103 0 rfl (by decide)
    (by decide) (by decide) (by decide)
  exact ⟨h1 7 bobBytes 0, h2, h5 7 bobBytes 0⟩

end ChatModel
